import Mathlib

/-!
Verification of the AI Security Report Assistant repository.

The repository has two source files:

* `backend/main.py` — a FastAPI service whose `POST /process` handler
  `process_vulnerability` validates the input text, checks the Gemini API key,
  calls the provider, strips markdown code fences from the reply, parses it as
  JSON, normalizes the `severity` field and fills defaults for the other two
  fields.
* `ticket_quality_signal_assistant.py` — a CLI utility whose
  `analyze_ticket_quality` computes `len(text.split()) // 10` and
  `list(set(re.findall(r'(?i)security|vulnerability|threat|patch', text)))`.

Strings are embedded as `List Char`.  Python's `str.strip`, `str.capitalize`,
`str.split()`, slicing (`s[7:]`, `s[:-3]`), `startswith`/`endswith` are given
executable models below.  The external provider call and `json.loads` are
abstracted as parameters of `processVulnerability`: the provider call is
represented by its outcome (an exception message or the reply text), and
`json.loads` by a function from the stripped text to either a parse-error
message or the parsed JSON object, itself represented by the three optional
fields the handler reads.
-/

/-- The characters Python's `str.strip()` (and `str.split()`) treat as
whitespace: space, tab, newline, carriage return, vertical tab, form feed. -/
def pyIsSpace (c : Char) : Bool :=
  c = ' ' || c = '\t' || c = '\n' || c = '\r' || c = '\x0b' || c = '\x0c'

/-- Python `str.strip()`: remove leading and trailing whitespace. -/
def pyStrip (s : List Char) : List Char :=
  ((s.dropWhile pyIsSpace).reverse.dropWhile pyIsSpace).reverse

/-- Python `str.capitalize()` (ASCII): first character uppercased, the rest
lowercased. -/
def pyCapitalize : List Char → List Char
  | [] => []
  | c :: cs => c.toUpper :: cs.map Char.toLower

/-- The backtick character, extracted from a string literal. -/
def bt : Char := "`".toList.headD ' '

/-- The literal "```" fence marker of `backend/main.py`. -/
def fence : List Char := "```".toList

/-- The literal "```json" fence marker of `backend/main.py`. -/
def fenceJson : List Char := "```json".toList

/-- Lines 112–123 of `backend/main.py`:
`response_text = response.text.strip()`, then
`if response_text.startswith("```json"): response_text = response_text[7:]`,
`if response_text.startswith("```"): response_text = response_text[3:]`,
`if response_text.endswith("```"): response_text = response_text[:-3]`,
`response_text = response_text.strip()`. -/
def extractJsonText (raw : List Char) : List Char :=
  let t0 := pyStrip raw
  let t1 := if fenceJson.isPrefixOf t0 then t0.drop 7 else t0
  let t2 := if fence.isPrefixOf t1 then t1.drop 3 else t1
  let t3 := if fence.isSuffixOf t2 then t2.take (t2.length - 3) else t2
  pyStrip t3

/-- The parsed provider reply (`analysis_data = json.loads(...)`), restricted
to the three keys the handler reads with `.get`; each is `none` when the key
is absent. -/
structure ParsedReply where
  severity : Option (List Char)
  risk_summary : Option (List Char)
  remediation_steps : Option (List (List Char))
deriving DecidableEq

/-- The pydantic `AnalysisResult` model of `backend/main.py`. -/
structure AnalysisResult where
  risk_summary : List Char
  severity : List Char
  remediation_steps : List (List Char)
deriving DecidableEq

/-- A FastAPI `HTTPException`: status code and `detail` message. -/
structure HTTPError where
  status : Nat
  detail : List Char
deriving DecidableEq

deriving instance DecidableEq for Except

/-- Python truthiness test `if not GEMINI_API_KEY` on `os.getenv` output:
`None` and the empty string are falsy. -/
def isFalsyKey : Option (List Char) → Bool
  | none => true
  | some l => l.isEmpty

/-- Lines 125–134 of `backend/main.py`: severity normalization and field
defaulting on the parsed reply.
`severity = analysis_data.get("severity", "Medium").capitalize()`;
`if severity not in ["Low", "Medium", "High", "Critical"]: severity = "Medium"`;
then `AnalysisResult` built with defaults `"Analysis completed"` and
`["No specific steps provided"]` for the absent keys. -/
def buildResult (d : ParsedReply) : AnalysisResult :=
  let sev0 := pyCapitalize (d.severity.getD ("Medium".toList))
  let sev := if sev0 ∈ (["Low".toList, "Medium".toList, "High".toList,
      "Critical".toList] : List (List Char)) then sev0 else "Medium".toList
  { risk_summary := d.risk_summary.getD ("Analysis completed".toList)
    severity := sev
    remediation_steps := d.remediation_steps.getD (["No specific steps provided".toList]) }

/-- The `POST /process` handler `process_vulnerability` of `backend/main.py`.
`geminiApiKey` is the value of `os.getenv("GEMINI_API_KEY")`; `providerCall`
is the outcome of the Gemini invocation (`.error` carries the exception
message of a failed call, `.ok` the reply text `response.text`); `jsonLoads`
models `json.loads` on the fence-stripped text (`.error` carries the
`json.JSONDecodeError` message). -/
def processVulnerability (geminiApiKey : Option (List Char))
    (providerCall : Except (List Char) (List Char))
    (jsonLoads : List Char → Except (List Char) ParsedReply)
    (vulnerabilityText : List Char) : Except HTTPError AnalysisResult :=
  if pyStrip vulnerabilityText = [] then
    .error ⟨400, "Vulnerability text cannot be empty".toList⟩
  else if isFalsyKey geminiApiKey then
    .error ⟨500, "Gemini API key not configured. Please set GEMINI_API_KEY environment variable.".toList⟩
  else
    match providerCall with
    | .error e => .error ⟨500, "Error processing vulnerability: ".toList ++ e⟩
    | .ok replyText =>
      match jsonLoads (extractJsonText replyText) with
      | .error e => .error ⟨500, "Failed to parse AI response: ".toList ++ e⟩
      | .ok d => .ok (buildResult d)

/-- Severity normalization as the specification words it: read `severity`
from the parsed object, default to "Medium" when the field is absent,
capitalize, and force "Medium" whenever the capitalized form is not one of
the four allowed labels Low, Medium, High, Critical. -/
def severitySpec (sev : Option (List Char)) : List Char :=
  let c := pyCapitalize (sev.getD ("Medium".toList))
  if c = "Low".toList ∨ c = "Medium".toList ∨ c = "High".toList ∨
      c = "Critical".toList then c
  else "Medium".toList

/-- Fueled worker for Python `str.split()` (no argument): skip whitespace,
otherwise emit the maximal run of non-whitespace characters and continue
after it.  Each step consumes at least one character, so fuel equal to the
length of the list is always sufficient. -/
def pySplitGo : Nat → List Char → List (List Char)
  | 0, _ => []
  | _, [] => []
  | fuel + 1, c :: cs =>
    if pyIsSpace c then pySplitGo fuel cs
    else (c :: cs.takeWhile (fun x => !pyIsSpace x)) ::
      pySplitGo fuel (cs.dropWhile (fun x => !pyIsSpace x))

/-- Python `str.split()` with no argument: the whitespace-separated tokens. -/
def pySplit (s : List Char) : List (List Char) := pySplitGo s.length s

/-- One step of the regex scan of
`re.findall(r'(?i)security|vulnerability|threat|patch', text)`: at the
current position, try the four alternatives in regex order,
case-insensitively, and return the length of the first that matches.
A `map Char.toLower` equality with an n-character keyword forces the taken
prefix to have exactly n characters. -/
def matchLenAt (s : List Char) : Option Nat :=
  if (s.take 8).map Char.toLower = "security".toList then some 8
  else if (s.take 13).map Char.toLower = "vulnerability".toList then some 13
  else if (s.take 6).map Char.toLower = "threat".toList then some 6
  else if (s.take 5).map Char.toLower = "patch".toList then some 5
  else none

/-- Fueled worker for `re.findall` scanning: on a match, record the matched
text (in its original case) and resume after it; otherwise advance one
character.  Every step consumes at least one character, so fuel equal to the
length of the list is always sufficient. -/
def findallGo : Nat → List Char → List (List Char)
  | 0, _ => []
  | _, [] => []
  | fuel + 1, c :: cs =>
    match matchLenAt (c :: cs) with
    | some n => (c :: cs).take n :: findallGo fuel ((c :: cs).drop n)
    | none => findallGo fuel cs

/-- `re.findall(r'(?i)security|vulnerability|threat|patch', ticket_notes)`:
the non-overlapping case-insensitive matches, left to right, as matched
(original case). -/
def findallKw (s : List Char) : List (List Char) := findallGo s.length s

/-- The result dictionary of `analyze_ticket_quality`. -/
structure TicketAnalysis where
  quality_score : Nat
  security_signals : List (List Char)
deriving DecidableEq

/-- `analyze_ticket_quality` of `ticket_quality_signal_assistant.py`:
`quality_score = len(ticket_notes.split()) // 10` and
`security_signals = list(set(re.findall(r'(?i)security|vulnerability|threat|patch', ticket_notes)))`.
CPython's `list(set(...))` enumerates the distinct matches in an unspecified
(hash-dependent) order; the model fixes the first-occurrence order via
`dedup`, and every claim about `security_signals` is stated
order-insensitively (membership and duplicate-freeness). -/
def analyze_ticket_quality (ticket_notes : List Char) : TicketAnalysis :=
  { quality_score := (pySplit ticket_notes).length / 10
    security_signals := (findallKw ticket_notes).dedup }


/-- A concrete 25-word ticket text containing the substring "Security" once
and "patch" once, for the scenario of the ticket-scorer specification. -/
def sampleTicket : List Char :=
  ("Security team reviewed the ticket and applied the vendor patch to the " ++
   "server fleet last week with no further issues found during the rollout today").toList

/-! ## Helper lemmas -/

/-- A string all of whose characters are Python whitespace strips to the
empty string. -/
theorem pyStrip_blank {l : List Char} (h : l.all pyIsSpace = true) :
    pyStrip l = [] := by
  have h1 : l.dropWhile pyIsSpace = [] :=
    List.dropWhile_eq_nil_iff.mpr (fun x hx => List.all_eq_true.mp h x hx)
  simp [pyStrip, h1]

/-! ## Claims -/

/-- C2: for every input text that is empty or consists only of whitespace,
analyze fails with ValidationError (HTTP 400, detail
"Vulnerability text cannot be empty"), and the outcome does not depend on
the provider call or the JSON parser — no provider call is attempted. -/
theorem c2_blank_input_rejected (text : List Char) (key : Option (List Char))
    (prov prov2 : Except (List Char) (List Char))
    (parse parse2 : List Char → Except (List Char) ParsedReply)
    (h : text.all pyIsSpace = true) :
    processVulnerability key prov parse text =
      .error ⟨400, "Vulnerability text cannot be empty".toList⟩ ∧
    processVulnerability key prov parse text =
      processVulnerability key prov2 parse2 text := by
  have hs : pyStrip text = [] := pyStrip_blank h
  constructor <;> simp [processVulnerability, hs]

/-- Witness for C2 at the whitespace-only input " ". -/
theorem c2_blank_input_rejected_witness :
    processVulnerability none (.ok []) (fun _ => .ok ⟨none, none, none⟩) (" ".toList) =
      .error ⟨400, "Vulnerability text cannot be empty".toList⟩ ∧
    processVulnerability none (.ok []) (fun _ => .ok ⟨none, none, none⟩) (" ".toList) =
      processVulnerability none (.error "network down".toList)
        (fun _ => .error "boom".toList) (" ".toList) :=
  c2_blank_input_rejected (" ".toList) none (.ok []) (.error "network down".toList)
    (fun _ => .ok ⟨none, none, none⟩) (fun _ => .error "boom".toList) (by decide)

/-- C9: the empty-input check runs before the credential check: for every
empty or whitespace-only input, even with no API key configured, analyze
fails with the 400 ValidationError and never with the 500
ConfigurationError. -/
theorem c9_validation_precedes_credential_check (text : List Char)
    (prov : Except (List Char) (List Char))
    (parse : List Char → Except (List Char) ParsedReply)
    (h : text.all pyIsSpace = true) :
    processVulnerability none prov parse text =
      .error ⟨400, "Vulnerability text cannot be empty".toList⟩ ∧
    processVulnerability none prov parse text ≠
      .error ⟨500, "Gemini API key not configured. Please set GEMINI_API_KEY environment variable.".toList⟩ := by
  have hs : pyStrip text = [] := pyStrip_blank h
  refine ⟨by simp [processVulnerability, hs], ?_⟩
  simp [processVulnerability, hs]

/-- Witness for C9 at the empty input with no API key configured. -/
theorem c9_validation_precedes_credential_check_witness :
    processVulnerability none (.ok []) (fun _ => .ok ⟨none, none, none⟩) [] =
      .error ⟨400, "Vulnerability text cannot be empty".toList⟩ ∧
    processVulnerability none (.ok []) (fun _ => .ok ⟨none, none, none⟩) [] ≠
      .error ⟨500, "Gemini API key not configured. Please set GEMINI_API_KEY environment variable.".toList⟩ :=
  c9_validation_precedes_credential_check [] (.ok [])
    (fun _ => .ok ⟨none, none, none⟩) (by decide)

/-- C1: on every success path the returned severity is the parsed reply's
`severity` field (default "Medium" when absent), capitalized, forced to
"Medium" when the capitalized form is not Low, Medium, High or Critical;
in particular "critical" normalizes to "Critical" while "Informational"
and "" yield "Medium". -/
theorem c1_severity_normalization (key : Option (List Char))
    (raw text : List Char)
    (parse : List Char → Except (List Char) ParsedReply) (d : ParsedReply)
    (hkey : isFalsyKey key = false) (htext : pyStrip text ≠ [])
    (hparse : parse (extractJsonText raw) = .ok d) :
    processVulnerability key (.ok raw) parse text = .ok (buildResult d) ∧
    (buildResult d).severity = severitySpec d.severity ∧
    severitySpec (some ("critical".toList)) = "Critical".toList ∧
    severitySpec (some ("Informational".toList)) = "Medium".toList ∧
    severitySpec (some []) = "Medium".toList := by
  refine ⟨by simp [processVulnerability, htext, hkey, hparse], ?_,
    by decide, by decide, by decide⟩
  simp [buildResult, severitySpec, List.mem_cons]

/-- Witness for C1: a reply with severity "critical" yields "Critical". -/
theorem c1_severity_normalization_witness :
    processVulnerability (some "k".toList) (.ok "```json 42 ```".toList)
      (fun t => if t = "42".toList then
          .ok ⟨some "critical".toList, none, none⟩
        else .error "bad".toList) ("x".toList) =
      .ok (buildResult ⟨some "critical".toList, none, none⟩) ∧
    (buildResult ⟨some "critical".toList, none, none⟩).severity =
      severitySpec (some "critical".toList) ∧
    severitySpec (some ("critical".toList)) = "Critical".toList ∧
    severitySpec (some ("Informational".toList)) = "Medium".toList ∧
    severitySpec (some []) = "Medium".toList :=
  c1_severity_normalization (some "k".toList) ("```json 42 ```".toList)
    ("x".toList)
    (fun t => if t = "42".toList then
        .ok ⟨some "critical".toList, none, none⟩
      else .error "bad".toList)
    (⟨some "critical".toList, none, none⟩)
    (by decide) (by decide) (by decide)

/-- C5: when the provider reply's stripped text is not valid JSON, analyze
fails with a 500 ProviderError whose detail contains the parse failure
message, and no AnalysisResult is returned. -/
theorem c5_parse_failure_provider_error (key : Option (List Char))
    (raw text msg : List Char)
    (parse : List Char → Except (List Char) ParsedReply)
    (hkey : isFalsyKey key = false) (htext : pyStrip text ≠ [])
    (hparse : parse (extractJsonText raw) = .error msg) :
    processVulnerability key (.ok raw) parse text =
      .error ⟨500, "Failed to parse AI response: ".toList ++ msg⟩ ∧
    msg <:+ "Failed to parse AI response: ".toList ++ msg :=
  ⟨by simp [processVulnerability, htext, hkey, hparse], List.suffix_append _ _⟩

/-- Witness for C5: a non-JSON reply "not json at all". -/
theorem c5_parse_failure_provider_error_witness :
    processVulnerability (some "k".toList) (.ok "not json at all".toList)
      (fun _ => .error "Expecting value: line 1 column 1 (char 0)".toList)
      ("x".toList) =
      .error ⟨500, "Failed to parse AI response: ".toList ++
        "Expecting value: line 1 column 1 (char 0)".toList⟩ ∧
    "Expecting value: line 1 column 1 (char 0)".toList <:+
      "Failed to parse AI response: ".toList ++
        "Expecting value: line 1 column 1 (char 0)".toList :=
  c5_parse_failure_provider_error (some "k".toList) ("not json at all".toList)
    ("x".toList) ("Expecting value: line 1 column 1 (char 0)".toList)
    (fun _ => .error "Expecting value: line 1 column 1 (char 0)".toList)
    (by decide) (by decide) rfl

/-- C6: for every parsed reply in which `risk_summary` is absent the
returned risk summary is the literal default "Analysis completed", and,
independently, for every parsed reply in which `remediation_steps` is
absent the returned steps are exactly the single-element list
["No specific steps provided"]; each default depends only on its own key. -/
theorem c6_missing_field_defaults (key : Option (List Char))
    (raw text : List Char)
    (parse : List Char → Except (List Char) ParsedReply) (d : ParsedReply)
    (hkey : isFalsyKey key = false) (htext : pyStrip text ≠ [])
    (hparse : parse (extractJsonText raw) = .ok d) :
    processVulnerability key (.ok raw) parse text = .ok (buildResult d) ∧
    (d.risk_summary = none →
      (buildResult d).risk_summary = "Analysis completed".toList) ∧
    (d.remediation_steps = none →
      (buildResult d).remediation_steps =
        ["No specific steps provided".toList]) := by
  refine ⟨by simp [processVulnerability, htext, hkey, hparse], ?_, ?_⟩ <;>
    intro h <;> simp [buildResult, h]

/-- Witness for C6, exercising both defaulting implications: one reply
missing only `risk_summary` (steps present) and one missing only
`remediation_steps` (summary present). -/
theorem c6_missing_field_defaults_witness :
    (processVulnerability (some "k".toList) (.ok "42".toList)
        (fun _ => .ok ⟨some "high".toList, none, some ["patch it".toList]⟩)
        ("x".toList) =
      .ok (buildResult ⟨some "high".toList, none, some ["patch it".toList]⟩) ∧
    (buildResult ⟨some "high".toList, none,
      some ["patch it".toList]⟩).risk_summary =
        "Analysis completed".toList) ∧
    (processVulnerability (some "k".toList) (.ok "42".toList)
        (fun _ => .ok ⟨some "high".toList, some "SQLi risk".toList, none⟩)
        ("x".toList) =
      .ok (buildResult ⟨some "high".toList, some "SQLi risk".toList, none⟩) ∧
    (buildResult ⟨some "high".toList, some "SQLi risk".toList,
      none⟩).remediation_steps = ["No specific steps provided".toList]) := by
  have ha := c6_missing_field_defaults (some "k".toList) ("42".toList)
    ("x".toList)
    (fun _ => .ok ⟨some "high".toList, none, some ["patch it".toList]⟩)
    (⟨some "high".toList, none, some ["patch it".toList]⟩)
    (by decide) (by decide) rfl
  have hb := c6_missing_field_defaults (some "k".toList) ("42".toList)
    ("x".toList)
    (fun _ => .ok ⟨some "high".toList, some "SQLi risk".toList, none⟩)
    (⟨some "high".toList, some "SQLi risk".toList, none⟩)
    (by decide) (by decide) rfl
  exact ⟨⟨ha.1, ha.2.1 rfl⟩, ⟨hb.1, hb.2.2 rfl⟩⟩

/-- C4 counterexample: a successful analyze whose parsed reply carries a
present-but-empty `remediation_steps` list returns an AnalysisResult with an
empty `remediation_steps` — the non-emptiness invariant does not hold. -/
theorem c4_counterexample :
    processVulnerability (some "k".toList) (.ok "42".toList)
      (fun _ => .ok ⟨none, none, some []⟩) ("x".toList) =
      .ok ⟨"Analysis completed".toList, "Medium".toList, []⟩ := by
  rfl

/-- C4 (amended): every successful analyze returns a non-empty
`remediation_steps` provided the parsed reply's `remediation_steps` key is
absent or non-empty; a present-but-empty list is passed through unchanged. -/
theorem c4_nonempty_remediation_steps (key : Option (List Char))
    (raw text : List Char)
    (parse : List Char → Except (List Char) ParsedReply) (d : ParsedReply)
    (hkey : isFalsyKey key = false) (htext : pyStrip text ≠ [])
    (hparse : parse (extractJsonText raw) = .ok d)
    (hd : d.remediation_steps ≠ some ([] : List (List Char))) :
    processVulnerability key (.ok raw) parse text = .ok (buildResult d) ∧
    (buildResult d).remediation_steps ≠ [] := by
  refine ⟨by simp [processVulnerability, htext, hkey, hparse], ?_⟩
  cases hrs : d.remediation_steps with
  | none => simp [buildResult, hrs]
  | some l =>
    have hl : l ≠ [] := fun hnil => hd (by rw [hrs, hnil])
    simp [buildResult, hrs, hl]

/-- Witness for C4 (amended): a reply with two remediation steps. -/
theorem c4_nonempty_remediation_steps_witness :
    processVulnerability (some "k".toList) (.ok "42".toList)
      (fun _ => .ok ⟨none, none, some ["Use parameterized queries".toList,
        "Add input validation".toList]⟩) ("x".toList) =
      .ok (buildResult ⟨none, none, some ["Use parameterized queries".toList,
        "Add input validation".toList]⟩) ∧
    (buildResult ⟨none, none, some ["Use parameterized queries".toList,
      "Add input validation".toList]⟩).remediation_steps ≠ [] :=
  c4_nonempty_remediation_steps (some "k".toList) ("42".toList) ("x".toList)
    (fun _ => .ok ⟨none, none, some ["Use parameterized queries".toList,
      "Add input validation".toList]⟩)
    (⟨none, none, some ["Use parameterized queries".toList,
      "Add input validation".toList]⟩)
    (by decide) (by decide) rfl (by decide)

/-- C7 counterexample: the input " " is a non-empty text, yet with no API
key configured analyze fails with the 400 ValidationError, not the 500
ConfigurationError the claim requires for every non-empty text. -/
theorem c7_counterexample :
    (" ".toList ≠ ([] : List Char)) ∧
    processVulnerability none (.ok []) (fun _ => .ok ⟨none, none, none⟩)
      (" ".toList) =
      .error ⟨400, "Vulnerability text cannot be empty".toList⟩ :=
  ⟨by decide, rfl⟩

/-- C7 (amended): for every input text that is non-empty after stripping
whitespace, if the API key is missing (or empty) then analyze fails with the
500 ConfigurationError, and the outcome does not depend on the provider call
or the JSON parser — the provider is not called. -/
theorem c7_missing_key_rejected (text : List Char) (key : Option (List Char))
    (prov prov2 : Except (List Char) (List Char))
    (parse parse2 : List Char → Except (List Char) ParsedReply)
    (htext : pyStrip text ≠ []) (hkey : isFalsyKey key = true) :
    processVulnerability key prov parse text =
      .error ⟨500, "Gemini API key not configured. Please set GEMINI_API_KEY environment variable.".toList⟩ ∧
    processVulnerability key prov parse text =
      processVulnerability key prov2 parse2 text := by
  constructor <;> simp [processVulnerability, htext, hkey]

/-- Witness for C7 (amended): a non-blank input with no key configured. -/
theorem c7_missing_key_rejected_witness :
    processVulnerability none (.ok []) (fun _ => .ok ⟨none, none, none⟩)
      ("SQL injection".toList) =
      .error ⟨500, "Gemini API key not configured. Please set GEMINI_API_KEY environment variable.".toList⟩ ∧
    processVulnerability none (.ok []) (fun _ => .ok ⟨none, none, none⟩)
      ("SQL injection".toList) =
      processVulnerability none (.error "down".toList)
        (fun _ => .error "boom".toList) ("SQL injection".toList) :=
  c7_missing_key_rejected ("SQL injection".toList) none (.ok [])
    (.error "down".toList) (fun _ => .ok ⟨none, none, none⟩)
    (fun _ => .error "boom".toList) (by decide) (by decide)

/-- The length and matched-prefix facts carried by a successful step of the
keyword scan: the length is positive and the taken prefix lowercases to one
of the four keyword literals. -/
theorem matchLenAt_spec {s : List Char} {n : Nat} (h : matchLenAt s = some n) :
    0 < n ∧ ((s.take n).map Char.toLower = "security".toList ∨
      (s.take n).map Char.toLower = "vulnerability".toList ∨
      (s.take n).map Char.toLower = "threat".toList ∨
      (s.take n).map Char.toLower = "patch".toList) := by
  unfold matchLenAt at h
  split_ifs at h with h1 h2 h3 h4
  · cases h; exact ⟨by decide, Or.inl h1⟩
  · cases h; exact ⟨by decide, Or.inr (Or.inl h2)⟩
  · cases h; exact ⟨by decide, Or.inr (Or.inr (Or.inl h3))⟩
  · cases h; exact ⟨by decide, Or.inr (Or.inr (Or.inr h4))⟩

/-- Every string emitted by the keyword scan lowercases to one of the four
keyword literals. -/
theorem findallGo_mem {fuel : Nat} {s x : List Char}
    (h : x ∈ findallGo fuel s) :
    x.map Char.toLower = "security".toList ∨
    x.map Char.toLower = "vulnerability".toList ∨
    x.map Char.toLower = "threat".toList ∨
    x.map Char.toLower = "patch".toList := by
  induction fuel generalizing s with
  | zero => simp [findallGo] at h
  | succ m ih =>
    cases s with
    | nil => simp [findallGo] at h
    | cons c cs =>
      rw [findallGo] at h
      cases hm : matchLenAt (c :: cs) with
      | some n =>
        rw [hm] at h
        rcases List.mem_cons.mp h with rfl | h2
        · exact (matchLenAt_spec hm).2
        · exact ih h2
      | none => rw [hm] at h; exact ih h

set_option maxRecDepth 100000 in
/-- C8: the ticket scorer returns `quality_score` equal to the number of
whitespace-separated tokens divided by 10 (floor) and `security_signals`
equal to the distinct regex matches of the four keyword literals; on the
concrete 25-word sample containing "Security" once and "patch" once it
returns quality score 2 and the signal set consisting of "Security" and
"patch". -/
theorem c8_ticket_scorer (s : List Char) :
    (analyze_ticket_quality s).quality_score = (pySplit s).length / 10 ∧
    (analyze_ticket_quality s).security_signals = (findallKw s).dedup ∧
    (pySplit sampleTicket).length = 25 ∧
    (analyze_ticket_quality sampleTicket).quality_score = 2 ∧
    (analyze_ticket_quality sampleTicket).security_signals =
      ["Security".toList, "patch".toList] :=
  ⟨rfl, rfl, by decide, by decide, by decide⟩

/-- C10: every element of `security_signals` lowercases to one of
"security", "vulnerability", "threat", "patch", and the list holds no
duplicate elements. -/
theorem c10_signal_invariant (s : List Char) :
    (∀ x ∈ (analyze_ticket_quality s).security_signals,
        x.map Char.toLower = "security".toList ∨
        x.map Char.toLower = "vulnerability".toList ∨
        x.map Char.toLower = "threat".toList ∨
        x.map Char.toLower = "patch".toList) ∧
    (analyze_ticket_quality s).security_signals.Nodup := by
  constructor
  · intro x hx
    have hx' : x ∈ findallKw s := by
      simpa [analyze_ticket_quality, List.mem_dedup] using hx
    exact findallGo_mem hx'
  · exact List.nodup_dedup _

/-- Witness for C10: the signal "Patch" of a concrete ticket lowercases to
"patch", and the signal list of that ticket has no duplicates. -/
theorem c10_signal_invariant_witness :
    ("Patch".toList.map Char.toLower = "security".toList ∨
     "Patch".toList.map Char.toLower = "vulnerability".toList ∨
     "Patch".toList.map Char.toLower = "threat".toList ∨
     "Patch".toList.map Char.toLower = "patch".toList) ∧
    (analyze_ticket_quality "apply the Patch and the patch again".toList).security_signals.Nodup :=
  ⟨(c10_signal_invariant ("apply the Patch and the patch again".toList)).1
      ("Patch".toList) (by decide),
   (c10_signal_invariant ("apply the Patch and the patch again".toList)).2⟩

/-- Bridge from the prefix relation to the executable `startswith` test. -/
theorem startsWithTrue {p s : List Char} (h : p <+: s) : p.isPrefixOf s = true :=
  Iff.mpr List.isPrefixOf_iff_prefix h

/-- Bridge from a refuted prefix relation to the executable test. -/
theorem startsWithFalse {p s : List Char} (h : ¬ p <+: s) :
    p.isPrefixOf s = false :=
  Bool.eq_false_iff.mpr fun hc => h (Iff.mp List.isPrefixOf_iff_prefix hc)

/-- Bridge from the suffix relation to the executable `endswith` test. -/
theorem endsWithTrue {p s : List Char} (h : p <:+ s) : p.isSuffixOf s = true :=
  Iff.mpr List.isSuffixOf_iff_suffix h

/-- Bridge from a refuted suffix relation to the executable test. -/
theorem endsWithFalse {p s : List Char} (h : ¬ p <:+ s) :
    p.isSuffixOf s = false :=
  Bool.eq_false_iff.mpr fun hc => h (Iff.mp List.isSuffixOf_iff_suffix hc)

/-- A list fixed by `dropWhile` has a head the predicate rejects. -/
theorem dropWhile_fix_head {p : Char → Bool} {x : Char} {l : List Char}
    (h : (x :: l).dropWhile p = x :: l) : p x = false := by
  cases hp : p x with
  | false => rfl
  | true =>
    rw [List.dropWhile_cons] at h
    simp only [hp, if_true] at h
    have hle : (l.dropWhile p).length ≤ l.length :=
      (List.dropWhile_suffix p).sublist.length_le
    rw [h] at hle
    simp at hle

/-- A list fixed by `pyStrip` is fixed by the leading `dropWhile` alone. -/
theorem pyStrip_fix_front {b : List Char} (h : pyStrip b = b) :
    b.dropWhile pyIsSpace = b := by
  have h1 : (pyStrip b).length ≤ (b.dropWhile pyIsSpace).length := by
    unfold pyStrip
    rw [List.length_reverse]
    calc ((b.dropWhile pyIsSpace).reverse.dropWhile pyIsSpace).length
        ≤ (b.dropWhile pyIsSpace).reverse.length :=
          (List.dropWhile_suffix pyIsSpace).sublist.length_le
      _ = (b.dropWhile pyIsSpace).length := List.length_reverse _
  rw [h] at h1
  exact (List.dropWhile_suffix pyIsSpace).sublist.eq_of_length_le h1

/-- A list fixed by `pyStrip` is fixed by the trailing `dropWhile` alone. -/
theorem pyStrip_fix_back {b : List Char} (h : pyStrip b = b) :
    b.reverse.dropWhile pyIsSpace = b.reverse := by
  have hf := pyStrip_fix_front h
  have h2 : (b.reverse.dropWhile pyIsSpace).reverse = b := by
    calc (b.reverse.dropWhile pyIsSpace).reverse
        = ((b.dropWhile pyIsSpace).reverse.dropWhile pyIsSpace).reverse := by
          rw [hf]
      _ = pyStrip b := rfl
      _ = b := h
  calc b.reverse.dropWhile pyIsSpace
      = (b.reverse.dropWhile pyIsSpace).reverse.reverse :=
        (List.reverse_reverse _).symm
    _ = b.reverse := by rw [h2]

/-- A list with non-whitespace first and last characters is fixed by
`pyStrip`. -/
theorem pyStrip_cons_concat {a c : Char} {m : List Char}
    (ha : pyIsSpace a = false) (hc : pyIsSpace c = false) :
    pyStrip (a :: (m ++ [c])) = a :: (m ++ [c]) := by
  simp [pyStrip, List.dropWhile_cons, ha, hc, List.reverse_append]

/-- A prefix of a concatenation is a prefix of the left part or extends it
into the right part. -/
theorem prefix_append_split {p b t : List Char} (h : p <+: b ++ t) :
    p <+: b ∨ ∃ q, q <+: t ∧ p = b ++ q := by
  obtain ⟨r, hr⟩ := h
  rcases List.append_eq_append_iff.mp hr with ⟨a', ha1, _⟩ | ⟨c', hc1, hc2⟩
  · exact Or.inl ⟨a', ha1.symm⟩
  · exact Or.inr ⟨c', ⟨r, hc2.symm⟩, hc1⟩

/-- "```" is not a prefix of `b ++ t` when `b` is non-empty and does not
start with a backtick. -/
theorem fence_not_prefix_append {b t : List Char} (hb : b ≠ [])
    (h3 : ¬ ("`".toList <+: b)) : fence.isPrefixOf (b ++ t) = false := by
  apply startsWithFalse
  intro hc
  cases b with
  | nil => exact hb rfl
  | cons x b' =>
    rw [show fence = bt :: "``".toList from by decide, List.cons_append] at hc
    obtain ⟨hx, -⟩ := List.cons_prefix_cons.mp hc
    refine h3 ?_
    rw [show ("`".toList) = [bt] from by decide, hx]
    exact ⟨b', rfl⟩

/-- "```json" is not a prefix of `b ++ t` when `b` is non-empty and does not
start with a backtick. -/
theorem fenceJson_not_prefix_append {b t : List Char} (hb : b ≠ [])
    (h3 : ¬ ("`".toList <+: b)) : fenceJson.isPrefixOf (b ++ t) = false := by
  apply startsWithFalse
  intro hc
  cases b with
  | nil => exact hb rfl
  | cons x b' =>
    rw [show fenceJson = bt :: "``json".toList from by decide,
      List.cons_append] at hc
    obtain ⟨hx, -⟩ := List.cons_prefix_cons.mp hc
    refine h3 ?_
    rw [show ("`".toList) = [bt] from by decide, hx]
    exact ⟨b', rfl⟩

/-- "```json" is not a prefix of "```" followed by text that does not start
with the letters "json". -/
theorem fenceJson_not_prefix_fence_append {u : List Char}
    (hjson : ¬ ("json".toList <+: u)) :
    fenceJson.isPrefixOf (fence ++ u) = false := by
  apply startsWithFalse
  intro hc
  rw [show fenceJson = fence ++ "json".toList from by decide] at hc
  exact hjson ((List.prefix_append_right_inj fence).mp hc)

/-- The Python slice `s[:-3]` of a string ending in "```" removes exactly
the fence. -/
theorem take_sub_fence (z : List Char) :
    (z ++ fence).take ((z ++ fence).length - 3) = z := by
  have h3 : fence.length = 3 := by decide
  have hlen : (z ++ fence).length - 3 = z.length := by
    rw [List.length_append, h3]
    omega
  rw [hlen]
  exact List.take_left z fence

/-- Two provider replies with the same fence-stripped text give the same
analyze outcome. -/
theorem process_reply_congr {r1 r2 : List Char}
    (h : extractJsonText r1 = extractJsonText r2) (key : Option (List Char))
    (parse : List Char → Except (List Char) ParsedReply) (text : List Char) :
    processVulnerability key (.ok r1) parse text =
      processVulnerability key (.ok r2) parse text := by
  simp only [processVulnerability, h]


/-- The normalized form of the Python slice `s[:-3]` on a string ending in
"```": it removes exactly the fence. -/
theorem take_sub_fence_norm (z : List Char) :
    List.take (z.length + fence.length - 3) (z ++ fence) = z := by
  have h3 : fence.length = 3 := by decide
  have hlen : z.length + fence.length - 3 = z.length := by
    rw [h3]
    omega
  rw [hlen]
  exact List.take_left z fence

/-- C3: for a provider reply whose body is wrapped in a leading "```json" or
"```" fence and/or a trailing "```" fence, the fence markers are stripped
before JSON parsing — the stripped text is exactly the unwrapped body — and
analyze on the wrapped reply equals analyze on the unwrapped body.  The body
is taken in the canonical decomposition: already whitespace-stripped,
non-empty, not itself starting with a backtick or the letters "json", and
not itself ending in a fence. -/
theorem c3_fence_stripping (b : List Char)
    (h1 : pyStrip b = b) (h2 : b ≠ [])
    (h3 : ¬ ("`".toList <+: b)) (h4 : ¬ (fence <:+ b))
    (h5 : ¬ ("json".toList <+: b)) :
    extractJsonText b = b ∧
    extractJsonText (fenceJson ++ b ++ fence) = b ∧
    extractJsonText (fence ++ b ++ fence) = b ∧
    extractJsonText (fenceJson ++ b) = b ∧
    extractJsonText (fence ++ b) = b ∧
    extractJsonText (b ++ fence) = b ∧
    (∀ key parse text,
      processVulnerability key (.ok (fenceJson ++ b ++ fence)) parse text =
        processVulnerability key (.ok b) parse text ∧
      processVulnerability key (.ok (fence ++ b ++ fence)) parse text =
        processVulnerability key (.ok b) parse text) := by
  -- the body's first character is not whitespace and not a backtick
  obtain ⟨x, b', hb⟩ : ∃ x b', b = x :: b' := by
    cases b with
    | nil => exact absurd rfl h2
    | cons x b' => exact ⟨x, b', rfl⟩
  have hxhead : pyIsSpace x = false := by
    apply dropWhile_fix_head (l := b')
    rw [← hb]
    exact pyStrip_fix_front h1
  -- the body's last character is not whitespace
  obtain ⟨m, y, hby⟩ : ∃ m y, b = m ++ [y] := by
    cases hbr : b.reverse with
    | nil => exact absurd (by simpa using congrArg List.reverse hbr) h2
    | cons y t =>
      refine ⟨t.reverse, y, ?_⟩
      have := congrArg List.reverse hbr
      simpa using this
  have hylast : pyIsSpace y = false := by
    apply dropWhile_fix_head (l := m.reverse)
    have hback := pyStrip_fix_back h1
    rw [hby, show (m ++ [y]).reverse = y :: m.reverse by simp] at hback
    exact hback
  -- negative fence tests on the bare body, in relational form
  have npj_b : ¬ (fenceJson <+: b) :=
    fun hc => h3 ((show "`".toList <+: fenceJson by decide).trans hc)
  have npf_b : ¬ (fence <+: b) :=
    fun hc => h3 ((show "`".toList <+: fence by decide).trans hc)
  have npf_bt : ∀ t : List Char, ¬ (fence <+: b ++ t) := by
    intro t hc
    rw [hb, List.cons_append] at hc
    rw [show fence = bt :: [bt, bt] from by decide] at hc
    obtain ⟨hx, -⟩ := List.cons_prefix_cons.mp hc
    refine h3 ?_
    rw [hb, show ("`".toList) = [bt] from by decide, hx]
    exact ⟨b', rfl⟩
  have npj_bt : ∀ t : List Char, ¬ (fenceJson <+: b ++ t) := by
    intro t hc
    rw [hb, List.cons_append] at hc
    rw [show fenceJson = bt :: [bt, bt, 'j', 's', 'o', 'n'] from by decide] at hc
    obtain ⟨hx, -⟩ := List.cons_prefix_cons.mp hc
    refine h3 ?_
    rw [hb, show ("`".toList) = [bt] from by decide, hx]
    exact ⟨b', rfl⟩
  -- the letters "json" do not start the body even with a fence appended
  have hjson_bf : ¬ ("json".toList <+: b ++ fence) := by
    intro hc
    rcases prefix_append_split hc with hcase | ⟨q, hq, heq⟩
    · exact h5 hcase
    · cases q with
      | nil =>
        rw [List.append_nil] at heq
        subst heq
        exact h5 (List.prefix_refl _)
      | cons z q' =>
        have hz : z = bt := by
          rw [show fence = bt :: [bt, bt] from by decide] at hq
          exact (List.cons_prefix_cons.mp hq).1
        have hzmem : z ∈ "json".toList := by
          rw [heq]; simp
        rw [hz] at hzmem
        exact absurd hzmem (by decide)
  have npjf : ∀ u : List Char, ¬ ("json".toList <+: u) →
      ¬ (fenceJson <+: fence ++ u) := by
    intro u hu hc
    rw [show fenceJson = fence ++ "json".toList from by decide] at hc
    exact hu ((List.prefix_append_right_inj fence).mp hc)
  -- the six fence-stripping computations
  have g0 : extractJsonText b = b := by
    simp [extractJsonText, h1, npj_b, npf_b, h4]
  have s1 : pyStrip (fenceJson ++ (b ++ fence)) = fenceJson ++ (b ++ fence) := by
    have e1 : fenceJson ++ (b ++ fence) =
        bt :: (([bt, bt, 'j', 's', 'o', 'n'] ++ b ++ [bt, bt]) ++ [bt]) := by
      rw [show fenceJson = bt :: [bt, bt, 'j', 's', 'o', 'n'] from by decide,
        show fence = [bt, bt] ++ [bt] from by decide]
      simp
    rw [e1, pyStrip_cons_concat (by decide) (by decide)]
  have d1 : List.drop 7 (fenceJson ++ (b ++ fence)) = b ++ fence :=
    List.drop_left' (by decide)
  have g1 : extractJsonText (fenceJson ++ b ++ fence) = b := by
    simp [extractJsonText, s1, d1, npf_bt fence, take_sub_fence_norm, h1]
  have s2 : pyStrip (fence ++ (b ++ fence)) = fence ++ (b ++ fence) := by
    have e2 : fence ++ (b ++ fence) =
        bt :: (([bt, bt] ++ b ++ [bt, bt]) ++ [bt]) := by
      rw [show fence = bt :: [bt, bt] from by decide]
      simp
    rw [e2, pyStrip_cons_concat (by decide) (by decide)]
  have d2 : List.drop 3 (fence ++ (b ++ fence)) = b ++ fence :=
    List.drop_left' (by decide)
  have g2 : extractJsonText (fence ++ b ++ fence) = b := by
    simp [extractJsonText, s2, npjf (b ++ fence) hjson_bf, d2, npf_bt fence,
      take_sub_fence_norm, h1]
  have s3 : pyStrip (fenceJson ++ b) = fenceJson ++ b := by
    have e3 : fenceJson ++ b = bt :: (([bt, bt, 'j', 's', 'o', 'n'] ++ m) ++ [y]) := by
      rw [hby, show fenceJson = bt :: [bt, bt, 'j', 's', 'o', 'n'] from by decide]
      simp
    rw [e3, pyStrip_cons_concat (by decide) hylast]
  have d3 : List.drop 7 (fenceJson ++ b) = b := List.drop_left' (by decide)
  have g3 : extractJsonText (fenceJson ++ b) = b := by
    simp [extractJsonText, s3, d3, npf_b, h4, h1]
  have s4 : pyStrip (fence ++ b) = fence ++ b := by
    have e4 : fence ++ b = bt :: (([bt, bt] ++ m) ++ [y]) := by
      rw [hby, show fence = bt :: [bt, bt] from by decide]
      simp
    rw [e4, pyStrip_cons_concat (by decide) hylast]
  have d4 : List.drop 3 (fence ++ b) = b := List.drop_left' (by decide)
  have g4 : extractJsonText (fence ++ b) = b := by
    simp [extractJsonText, s4, npjf b h5, d4, h4, h1]
  have s5 : pyStrip (b ++ fence) = b ++ fence := by
    have e5 : b ++ fence = x :: ((b' ++ [bt, bt]) ++ [bt]) := by
      rw [hb, show fence = [bt, bt] ++ [bt] from by decide]
      simp
    rw [e5, pyStrip_cons_concat hxhead (by decide)]
  have g5 : extractJsonText (b ++ fence) = b := by
    simp [extractJsonText, s5, npj_bt fence, npf_bt fence,
      take_sub_fence_norm, h1]
  refine ⟨g0, g1, g2, g3, g4, g5, fun key parse text => ⟨?_, ?_⟩⟩
  · exact process_reply_congr (g1.trans g0.symm) key parse text
  · exact process_reply_congr (g2.trans g0.symm) key parse text

/-- Witness for C3: the body "42" under each of the five wrappings. -/
theorem c3_fence_stripping_witness :
    extractJsonText ("42".toList) = "42".toList ∧
    extractJsonText (fenceJson ++ "42".toList ++ fence) = "42".toList ∧
    extractJsonText (fence ++ "42".toList ++ fence) = "42".toList ∧
    extractJsonText (fenceJson ++ "42".toList) = "42".toList ∧
    extractJsonText (fence ++ "42".toList) = "42".toList ∧
    extractJsonText ("42".toList ++ fence) = "42".toList ∧
    processVulnerability (some "k".toList)
        (.ok (fenceJson ++ "42".toList ++ fence))
        (fun _ => .ok ⟨none, none, none⟩) ("x".toList) =
      processVulnerability (some "k".toList) (.ok "42".toList)
        (fun _ => .ok ⟨none, none, none⟩) ("x".toList) := by
  have h := c3_fence_stripping ("42".toList) (by decide) (by decide)
    (by decide) (by decide) (by decide)
  exact ⟨h.1, h.2.1, h.2.2.1, h.2.2.2.1, h.2.2.2.2.1, h.2.2.2.2.2.1,
    (h.2.2.2.2.2.2 (some "k".toList) (fun _ => .ok ⟨none, none, none⟩)
      ("x".toList)).1⟩
